import Mathlib

/-!
Verification development for the better-bookmarks thumbnail pipeline.

The definitions below are a shallow embedding of the TypeScript sources:
JavaScript Map objects become association lists (insertion ordered,
set-in-place on an existing key), timestamps from Date.now() become Int
milliseconds passed explicitly, and the asynchronous external collaborators
(render API, HEAD validation, Firebase upload/download) become oracle
fields of an environment record.  Fallible operations return Option or
Except values.
-/

namespace BetterBookmarks

/-! ## JavaScript-style string-keyed map on association lists -/

def jsMapGet (m : List (String × β)) (k : String) : Option β :=
  (m.find? (fun p => p.1 == k)).map (fun p => p.2)

def jsMapSet (m : List (String × β)) (k : String) (v : β) : List (String × β) :=
  if m.any (fun p => p.1 == k) then
    m.map (fun p => if p.1 == k then (k, v) else p)
  else
    m ++ [(k, v)]

def jsMapDelete (m : List (String × β)) (k : String) : List (String × β) :=
  m.filter (fun p => !(p.1 == k))

@[simp]
theorem jsMapGet_nil (k : String) : jsMapGet ([] : List (String × β)) k = none := rfl

@[simp]
theorem jsMapSet_nil (k : String) (v : β) :
    jsMapSet ([] : List (String × β)) k v = [(k, v)] := rfl

theorem jsMapGet_cons_pos (p : String × β) (t : List (String × β)) (k : String)
    (h : p.1 = k) : jsMapGet (p :: t) k = some p.2 := by
  unfold jsMapGet
  rw [List.find?_cons_of_pos _ (by simp [h])]
  rfl

theorem jsMapGet_cons_neg (p : String × β) (t : List (String × β)) (k : String)
    (h : ¬ p.1 = k) : jsMapGet (p :: t) k = jsMapGet t k := by
  unfold jsMapGet
  rw [List.find?_cons_of_neg _ (by simp [h])]

theorem jsMapGet_map_update_self (m : List (String × β)) (k : String) (v : β)
    (h : m.any (fun p => p.1 == k) = true) :
    jsMapGet (m.map (fun p => if p.1 == k then (k, v) else p)) k = some v := by
  induction m with
  | nil => simp at h
  | cons p t ih =>
    by_cases hp : p.1 = k
    · rw [List.map_cons, if_pos (by simp [hp]), jsMapGet_cons_pos _ _ _ rfl]
    · have h' : t.any (fun p => p.1 == k) = true := by
        simpa [hp] using h
      rw [List.map_cons, if_neg (by simp [hp]), jsMapGet_cons_neg _ _ _ hp]
      exact ih h'

theorem jsMapGet_append_single_self (m : List (String × β)) (k : String) (v : β)
    (h : m.any (fun p => p.1 == k) = false) :
    jsMapGet (m ++ [(k, v)]) k = some v := by
  induction m with
  | nil => simp [jsMapGet]
  | cons p t ih =>
    have hp : ¬ p.1 = k := by
      intro he
      simp [he] at h
    have h' : t.any (fun p => p.1 == k) = false := by
      simpa [hp] using h
    rw [List.cons_append, jsMapGet_cons_neg _ _ _ hp]
    exact ih h'

theorem jsMapGet_set_self (m : List (String × β)) (k : String) (v : β) :
    jsMapGet (jsMapSet m k v) k = some v := by
  unfold jsMapSet
  by_cases h : m.any (fun p => p.1 == k) = true
  · rw [if_pos h]
    exact jsMapGet_map_update_self m k v h
  · have h' : m.any (fun p => p.1 == k) = false := by
      revert h
      cases m.any (fun p => p.1 == k) <;> simp
    rw [if_neg (by simp [h'])]
    exact jsMapGet_append_single_self m k v h'

theorem jsMapGet_set_other (m : List (String × β)) (k k' : String) (v : β) (h : k' ≠ k) :
    jsMapGet (jsMapSet m k v) k' = jsMapGet m k' := by
  unfold jsMapSet
  by_cases hany : m.any (fun p => p.1 == k) = true
  · rw [if_pos hany]
    clear hany
    induction m with
    | nil => simp
    | cons p t ih =>
      by_cases hp : p.1 = k
      · rw [List.map_cons, if_pos (by simp [hp]),
          jsMapGet_cons_neg (k, v) _ k' (fun he => h he.symm),
          jsMapGet_cons_neg p t k' (by rw [hp]; exact fun he => h he.symm)]
        exact ih
      · by_cases hp' : p.1 = k'
        · rw [List.map_cons, if_neg (by simp [hp]), jsMapGet_cons_pos _ _ _ hp',
            jsMapGet_cons_pos _ _ _ hp']
        · rw [List.map_cons, if_neg (by simp [hp]), jsMapGet_cons_neg _ _ _ hp',
            jsMapGet_cons_neg _ _ _ hp']
          exact ih
  · rw [if_neg hany]
    clear hany
    induction m with
    | nil => simp [jsMapGet, Ne.symm h]
    | cons p t ih =>
      by_cases hp' : p.1 = k'
      · rw [List.cons_append, jsMapGet_cons_pos _ _ _ hp', jsMapGet_cons_pos _ _ _ hp']
      · rw [List.cons_append, jsMapGet_cons_neg _ _ _ hp', jsMapGet_cons_neg _ _ _ hp']
        exact ih

theorem jsMapGet_delete_self (m : List (String × β)) (k : String) :
    jsMapGet (jsMapDelete m k) k = none := by
  induction m with
  | nil => rfl
  | cons p t ih =>
    unfold jsMapDelete at ih ⊢
    rw [List.filter_cons]
    by_cases hp : p.1 = k
    · rw [if_neg (by simp [hp])]
      exact ih
    · rw [if_pos (by simp [hp]), jsMapGet_cons_neg _ _ _ hp]
      exact ih

theorem jsMapGet_delete_other (m : List (String × β)) (k k' : String) (h : k' ≠ k) :
    jsMapGet (jsMapDelete m k) k' = jsMapGet m k' := by
  induction m with
  | nil => rfl
  | cons p t ih =>
    unfold jsMapDelete at ih ⊢
    rw [List.filter_cons]
    by_cases hp : p.1 = k
    · rw [if_neg (by simp [hp]), jsMapGet_cons_neg p t k' (by rw [hp]; exact fun he => h he.symm)]
      exact ih
    · by_cases hp' : p.1 = k'
      · rw [if_pos (by simp [hp]), jsMapGet_cons_pos _ _ _ hp', jsMapGet_cons_pos _ _ _ hp']
      · rw [if_pos (by simp [hp]), jsMapGet_cons_neg _ _ _ hp', jsMapGet_cons_neg _ _ _ hp']
        exact ih

theorem jsMapSet_length (m : List (String × β)) (k : String) (v : β) :
    (jsMapSet m k v).length =
      if m.any (fun p => p.1 == k) then m.length else m.length + 1 := by
  unfold jsMapSet
  by_cases h : m.any (fun p => p.1 == k) = true <;> simp [h]

/-! ## CacheService (src/services/cacheService.ts)

Memory tier: a Map of CacheEntry values; local tier: localStorage entries
stored under a cache_ prefix with JSON round-tripping abstracted away.
Timestamps are Int milliseconds; every Date.now() call site receives the
explicit now argument. -/

structure CacheEntry (α : Type) where
  data : α
  timestamp : Int
  expires : Int
  deriving DecidableEq

abbrev MemCache (α : Type) := List (String × CacheEntry α)

abbrev LocalCache (α : Type) := List (String × CacheEntry α)

def MAX_MEMORY_SIZE : Nat := 100

def cleanupMemoryCache (now : Int) (m : MemCache α) : MemCache α :=
  m.filter (fun p => !(decide (now > p.2.expires)))

def setMemory (now : Int) (m : MemCache α) (key : String) (data : α) (ttl : Int) :
    MemCache α :=
  let m1 := if m.length ≥ MAX_MEMORY_SIZE then cleanupMemoryCache now m else m
  jsMapSet m1 key ⟨data, now, now + ttl⟩

def getMemory (now : Int) (m : MemCache α) (key : String) : Option α × MemCache α :=
  match jsMapGet m key with
  | none => (none, m)
  | some e => if now > e.expires then (none, jsMapDelete m key) else (some e.data, m)

def setLocal (now : Int) (l : LocalCache α) (key : String) (data : α) (ttl : Int) :
    LocalCache α :=
  jsMapSet l ("cache_" ++ key) ⟨data, now, now + ttl⟩

def getLocal (now : Int) (l : LocalCache α) (key : String) : Option α × LocalCache α :=
  match jsMapGet l ("cache_" ++ key) with
  | none => (none, l)
  | some e =>
    if now > e.expires then (none, jsMapDelete l ("cache_" ++ key)) else (some e.data, l)

theorem getMemory_set_before (m : MemCache α) (key : String) (v : α) (ttl t t' : Int)
    (h : t' < t + ttl) :
    getMemory t' (setMemory t m key v ttl) key = (some v, setMemory t m key v ttl) := by
  unfold getMemory
  rw [show jsMapGet (setMemory t m key v ttl) key = some ⟨v, t, t + ttl⟩ from
    jsMapGet_set_self _ key _]
  have hlt : ¬ t' > t + ttl := by omega
  simp [hlt]

theorem getMemory_set_after (m : MemCache α) (key : String) (v : α) (ttl t t' : Int)
    (h : t + ttl < t') :
    (getMemory t' (setMemory t m key v ttl) key).1 = none ∧
      jsMapGet (getMemory t' (setMemory t m key v ttl) key).2 key = none := by
  unfold getMemory
  rw [show jsMapGet (setMemory t m key v ttl) key = some ⟨v, t, t + ttl⟩ from
    jsMapGet_set_self _ key _]
  have hgt : t' > t + ttl := by omega
  simp [hgt, jsMapGet_delete_self]

theorem getLocal_set_before (l : LocalCache α) (key : String) (v : α) (ttl t t' : Int)
    (h : t' < t + ttl) :
    getLocal t' (setLocal t l key v ttl) key = (some v, setLocal t l key v ttl) := by
  unfold getLocal
  rw [show jsMapGet (setLocal t l key v ttl) ("cache_" ++ key) = some ⟨v, t, t + ttl⟩ from
    jsMapGet_set_self _ _ _]
  have hlt : ¬ t' > t + ttl := by omega
  simp [hlt]

theorem getLocal_set_after (l : LocalCache α) (key : String) (v : α) (ttl t t' : Int)
    (h : t + ttl < t') :
    (getLocal t' (setLocal t l key v ttl) key).1 = none ∧
      jsMapGet (getLocal t' (setLocal t l key v ttl) key).2 ("cache_" ++ key) = none := by
  unfold getLocal
  rw [show jsMapGet (setLocal t l key v ttl) ("cache_" ++ key) = some ⟨v, t, t + ttl⟩ from
    jsMapGet_set_self _ _ _]
  have hgt : t' > t + ttl := by omega
  simp [hgt, jsMapGet_delete_self]

theorem jsMapGet_cleanup_of_unexpired (now : Int) (m : MemCache α) (k : String)
    (e : CacheEntry α) (hget : jsMapGet m k = some e) (hun : ¬ now > e.expires) :
    jsMapGet (cleanupMemoryCache now m) k = some e := by
  induction m with
  | nil => simp at hget
  | cons p t ih =>
    unfold cleanupMemoryCache at ih ⊢
    rw [List.filter_cons]
    by_cases hp : p.1 = k
    · rw [jsMapGet_cons_pos _ _ _ hp] at hget
      have he : p.2 = e := by injection hget
      rw [if_pos (by simp [he, hun]), jsMapGet_cons_pos _ _ _ hp, he]
    · rw [jsMapGet_cons_neg _ _ _ hp] at hget
      by_cases hkeep : (now > p.2.expires)
      · rw [if_neg (by simp [hkeep])]
        exact ih hget
      · rw [if_pos (by simp [hkeep]), jsMapGet_cons_neg _ _ _ hp]
        exact ih hget

theorem setMemory_preserves_unexpired (now : Int) (m : MemCache α) (key k' : String)
    (data : α) (ttl : Int) (e : CacheEntry α) (hne : k' ≠ key)
    (hget : jsMapGet m k' = some e) (hun : ¬ now > e.expires) :
    jsMapGet (setMemory now m key data ttl) k' = some e := by
  unfold setMemory
  rw [jsMapGet_set_other _ _ _ _ hne]
  by_cases hlen : m.length ≥ MAX_MEMORY_SIZE
  · rw [if_pos hlen]
    exact jsMapGet_cleanup_of_unexpired now m k' e hget hun
  · rw [if_neg hlen]
    exact hget

/-- C7: cache TTL semantics for both tiers.  An entry written by set at
time t with time-to-live ttl is returned unchanged by a get strictly
before t + ttl, and a get strictly after t + ttl misses and physically
removes the entry from the tier. -/
theorem cacheService_ttl (α : Type) (m : MemCache α) (l : LocalCache α) (key : String)
    (v : α) (ttl t t' : Int) :
    (t' < t + ttl →
      (getMemory t' (setMemory t m key v ttl) key).1 = some v ∧
      (getMemory t' (setMemory t m key v ttl) key).2 = setMemory t m key v ttl ∧
      (getLocal t' (setLocal t l key v ttl) key).1 = some v ∧
      (getLocal t' (setLocal t l key v ttl) key).2 = setLocal t l key v ttl) ∧
    (t + ttl < t' →
      (getMemory t' (setMemory t m key v ttl) key).1 = none ∧
      jsMapGet (getMemory t' (setMemory t m key v ttl) key).2 key = none ∧
      (getLocal t' (setLocal t l key v ttl) key).1 = none ∧
      jsMapGet (getLocal t' (setLocal t l key v ttl) key).2 ("cache_" ++ key) = none) := by
  refine ⟨fun h => ?_, fun h => ?_⟩
  · have h1 := getMemory_set_before m key v ttl t t' h
    have h2 := getLocal_set_before l key v ttl t t' h
    rw [h1, h2]
    exact ⟨rfl, rfl, rfl, rfl⟩
  · have h1 := getMemory_set_after m key v ttl t t' h
    have h2 := getLocal_set_after l key v ttl t t' h
    exact ⟨h1.1, h1.2, h2.1, h2.2⟩

/-- Witness for C7: a five-minute entry is retrievable one millisecond
after the write and is gone (miss plus physical removal) one millisecond
past expiry. -/
theorem cacheService_ttl_witness :
    (getMemory 1 (setMemory 0 ([] : MemCache Nat) "k" 7 300000) "k").1 = some 7 ∧
    (getMemory 300001 (setMemory 0 ([] : MemCache Nat) "k" 7 300000) "k").1 = none ∧
    jsMapGet (getMemory 300001 (setMemory 0 ([] : MemCache Nat) "k" 7 300000) "k").2 "k" =
      none :=
  ⟨((cacheService_ttl Nat [] [] "k" 7 300000 0 1).1 (by decide)).1,
    ((cacheService_ttl Nat [] [] "k" 7 300000 0 300001).2 (by decide)).1,
    ((cacheService_ttl Nat [] [] "k" 7 300000 0 300001).2 (by decide)).2.1⟩

/-- Sequence of one hundred setMemory writes of distinct, unexpired
entries performed at time 0, used to exhibit the memory tier at its
nominal capacity bound. -/
def overfilledMemCache : MemCache Nat :=
  (List.range MAX_MEMORY_SIZE).foldl (fun m i => setMemory 0 m (toString i) i 1000) []

set_option maxRecDepth 100000 in
/-- C10: the memory-tier capacity is not a hard bound.  After one hundred
distinct unexpired entries have been written, a further setMemory with a
fresh key makes the tier exceed MAX_MEMORY_SIZE, because the
capacity-triggered cleanup removes only expired entries and insertion
proceeds unconditionally; and a write never evicts an unexpired entry
stored under a different key. -/
theorem setMemory_capacity_not_hard_bound :
    (overfilledMemCache.length = MAX_MEMORY_SIZE ∧
      (setMemory 0 overfilledMemCache "fresh" 0 1000).length = MAX_MEMORY_SIZE + 1) ∧
    ∀ (α : Type) (now : Int) (m : MemCache α) (key k' : String) (data : α) (ttl : Int)
      (e : CacheEntry α), k' ≠ key → jsMapGet m k' = some e → ¬ now > e.expires →
      jsMapGet (setMemory now m key data ttl) k' = some e := by
  refine ⟨⟨by decide, by decide⟩, ?_⟩
  intro α now m key k' data ttl e hne hget hun
  exact setMemory_preserves_unexpired now m key k' data ttl e hne hget hun

/-- Witness for C10: instantiates the frame part of the capacity theorem
at a concrete one-entry cache and restates the concrete overflow fact. -/
theorem setMemory_capacity_witness :
    (setMemory 0 overfilledMemCache "fresh" 0 1000).length = MAX_MEMORY_SIZE + 1 ∧
    jsMapGet (setMemory 5 [("a", (⟨1, 0, 10⟩ : CacheEntry Nat))] "b" 2 100) "a" =
      some ⟨1, 0, 10⟩ :=
  ⟨setMemory_capacity_not_hard_bound.1.2,
    setMemory_capacity_not_hard_bound.2 Nat 5 [("a", ⟨1, 0, 10⟩)] "b" "a" 2 100 ⟨1, 0, 10⟩
      (by decide) (by decide) (by decide)⟩

/-! ## RateLimiter (src/utils/security.ts)

State is the private attempts Map from string keys to timestamp arrays.
isAllowed prunes timestamps outside the sliding window, denies once
maxAttempts remain, and records the current timestamp on allowed calls
only (a denied call leaves the map untouched, exactly as in the source). -/

abbrev RateLimiterState := List (String × List Int)

def isAllowed (rl : RateLimiterState) (key : String) (maxAttempts : Nat)
    (windowMs now : Int) : Bool × RateLimiterState :=
  let windowStart := now - windowMs
  let keyAttempts := (jsMapGet rl key).getD []
  let recentAttempts := keyAttempts.filter (fun time => decide (time > windowStart))
  if recentAttempts.length ≥ maxAttempts then
    (false, rl)
  else
    (true, jsMapSet rl key (recentAttempts ++ [now]))

def runRateLimiter (rl : RateLimiterState) (key : String) (maxAttempts : Nat)
    (windowMs : Int) : List Int → List Bool × RateLimiterState
  | [] => ([], rl)
  | t :: ts =>
    ((isAllowed rl key maxAttempts windowMs t).1 ::
        (runRateLimiter (isAllowed rl key maxAttempts windowMs t).2 key maxAttempts
          windowMs ts).1,
      (runRateLimiter (isAllowed rl key maxAttempts windowMs t).2 key maxAttempts
        windowMs ts).2)

theorem jsMapGet_single_self (key : String) (v : β) :
    jsMapGet [(key, v)] key = some v := jsMapGet_cons_pos _ _ _ rfl

theorem jsMapSet_single_self (key : String) (v w : β) :
    jsMapSet [(key, v)] key w = [(key, w)] := by
  simp [jsMapSet]

theorem isAllowed_single (cur : List Int) (key : String) (maxA : Nat) (w t : Int)
    (hfil : cur.filter (fun s => decide (s > t - w)) = cur) :
    isAllowed [(key, cur)] key maxA w t =
      if cur.length ≥ maxA then (false, [(key, cur)])
      else (true, [(key, cur ++ [t])]) := by
  unfold isAllowed
  rw [jsMapGet_single_self]
  simp only [Option.getD_some, hfil, jsMapSet_single_self]

theorem runRateLimiter_single_key (ts : List Int) (cur : List Int) (key : String)
    (maxA : Nat) (w : Int)
    (Hcur : ∀ s ∈ cur, ∀ t ∈ ts, t - s < w)
    (Hts : ∀ a ∈ ts, ∀ b ∈ ts, b - a < w) :
    runRateLimiter [(key, cur)] key maxA w ts =
      ((List.range ts.length).map (fun i => decide (cur.length + i < maxA)),
       [(key, cur ++ ts.take (maxA - cur.length))]) := by
  induction ts generalizing cur with
  | nil => simp [runRateLimiter]
  | cons t ts ih =>
    have hfil : cur.filter (fun s => decide (s > t - w)) = cur := by
      apply List.filter_eq_self.mpr
      intro s hs
      have hw := Hcur s hs t (List.mem_cons_self t ts)
      simp only [decide_eq_true_eq]
      omega
    have hstep := isAllowed_single cur key maxA w t hfil
    by_cases hfull : cur.length ≥ maxA
    · rw [if_pos hfull] at hstep
      have htail := ih cur
        (fun s hs t' ht' => Hcur s hs t' (List.mem_cons_of_mem t ht'))
        (fun a ha b hb => Hts a (List.mem_cons_of_mem t ha) b (List.mem_cons_of_mem t hb))
      have htake : maxA - cur.length = 0 := by omega
      have hres : (List.range (t :: ts).length).map
            (fun i => decide (cur.length + i < maxA)) =
          false :: (List.range ts.length).map (fun i => decide (cur.length + i < maxA)) := by
        rw [List.length_cons, List.range_succ_eq_map, List.map_cons, List.map_map]
        congr 1
        · simp only [Nat.add_zero, decide_eq_false_iff_not]
          omega
        · apply List.map_congr_left
          intro i hi
          simp only [Function.comp_apply, decide_eq_decide]
          omega
      simp only [runRateLimiter, hstep, htail, htake, List.take_zero, List.append_nil, hres]
    · rw [if_neg hfull] at hstep
      have htail := ih (cur ++ [t])
        (by
          intro s hs t' ht'
          rcases List.mem_append.mp hs with hs1 | hs2
          · exact Hcur s hs1 t' (List.mem_cons_of_mem t ht')
          · have hst : s = t := by simpa using hs2
            subst hst
            exact Hts s (List.mem_cons_self s ts) t' (List.mem_cons_of_mem s ht'))
        (fun a ha b hb => Hts a (List.mem_cons_of_mem t ha) b (List.mem_cons_of_mem t hb))
      have hres : (List.range (t :: ts).length).map
            (fun i => decide (cur.length + i < maxA)) =
          true :: (List.range ts.length).map
            (fun i => decide ((cur ++ [t]).length + i < maxA)) := by
        rw [List.length_cons, List.range_succ_eq_map, List.map_cons, List.map_map]
        congr 1
        · simp only [Nat.add_zero, decide_eq_true_eq]
          omega
        · apply List.map_congr_left
          intro i hi
          simp only [Function.comp_apply, List.length_append, List.length_singleton,
            decide_eq_decide]
          omega
      have hstate : cur ++ List.take (maxA - cur.length) (t :: ts) =
          cur ++ [t] ++ List.take (maxA - (cur ++ [t]).length) ts := by
        have harith : maxA - cur.length = (maxA - (cur.length + 1)) + 1 := by omega
        rw [harith, List.take_succ_cons, List.append_assoc]
        simp
      simp only [runRateLimiter, hstep, htail, hres, hstate]

theorem range_map_decide_succ_lt (n : Nat) :
    (List.range (n + 1)).map (fun i => decide (1 + i < n + 1)) =
      List.replicate n true ++ [false] := by
  rw [List.range_succ, List.map_append]
  have h1 : (List.range n).map (fun i => decide (1 + i < n + 1)) = List.replicate n true := by
    apply List.eq_replicate_iff.mpr
    refine ⟨by simp, ?_⟩
    intro b hb
    rcases List.mem_map.mp hb with ⟨i, hi, hb2⟩
    have hlt : i < n := List.mem_range.mp hi
    rw [← hb2]
    simp only [decide_eq_true_eq]
    omega
  have hn : ¬ (1 + n < n + 1) := by omega
  rw [h1]
  simp [hn]

/-- C6: sliding-window rate limiting.  Starting from an empty limiter, a
sequence of maxAttempts + 1 calls whose timestamps all lie within one
window of each other yields true for exactly the first maxAttempts calls
and false for the last; once a further call arrives a full window after
every recorded timestamp, it is allowed again.  The bookmark-creation
path instantiates this with key bookmark-create-userId, maxAttempts = 10
and windowMs = 60000. -/
theorem rateLimiter_sliding_window (key : String) (maxA : Nat) (w : Int)
    (ts : List Int) (t' : Int) (hpos : 0 < maxA) (hlen : ts.length = maxA + 1)
    (Hts : ∀ a ∈ ts, ∀ b ∈ ts, b - a < w)
    (Hafter : ∀ s ∈ ts, w ≤ t' - s) :
    (runRateLimiter [] key maxA w ts).1 = List.replicate maxA true ++ [false] ∧
      (isAllowed (runRateLimiter [] key maxA w ts).2 key maxA w t').1 = true := by
  cases ts with
  | nil => simp at hlen
  | cons t tr =>
    have hstep0 : isAllowed [] key maxA w t = (true, [(key, [t])]) := by
      unfold isAllowed
      simp [Nat.not_le.mpr hpos]
    have haux := runRateLimiter_single_key tr [t] key maxA w
      (by
        intro s hs t2 ht2
        have hst : s = t := by simpa using hs
        subst hst
        exact Hts s (List.mem_cons_self s tr) t2 (List.mem_cons_of_mem s ht2))
      (fun a ha b hb => Hts a (List.mem_cons_of_mem t ha) b (List.mem_cons_of_mem t hb))
    have htr : tr.length = maxA := by simpa using hlen
    obtain ⟨n, rfl⟩ : ∃ n, maxA = n + 1 := ⟨maxA - 1, by omega⟩
    have hrun : runRateLimiter [] key (n + 1) w (t :: tr) =
        (true :: (List.range tr.length).map (fun i => decide (1 + i < n + 1)),
          [(key, [t] ++ tr.take (n + 1 - 1))]) := by
      simp only [runRateLimiter, hstep0, haux, List.length_singleton]
    constructor
    · rw [hrun, htr, range_map_decide_succ_lt n]
      simp [List.replicate_succ]
    · rw [hrun]
      have hsub : ∀ s ∈ [t] ++ tr.take (n + 1 - 1), s ∈ t :: tr := by
        intro s hs
        rcases List.mem_append.mp hs with hs1 | hs2
        · have hst : s = t := by simpa using hs1
          subst hst
          exact List.mem_cons_self s tr
        · exact List.mem_cons_of_mem t (List.take_subset _ _ hs2)
      have hfil : ([t] ++ tr.take (n + 1 - 1)).filter
          (fun s => decide (s > t' - w)) = [] := by
        apply List.filter_eq_nil_iff.mpr
        intro s hs
        have hw := Hafter s (hsub s hs)
        simp only [decide_eq_true_eq]
        omega
      unfold isAllowed
      rw [jsMapGet_single_self]
      simp only [Option.getD_some, hfil, List.length_nil]
      rw [if_neg (by omega)]

/-- Witness for C6 at scenario (e): eleven bookmark-creation calls for one
user within sixty seconds; the first ten are allowed, the eleventh denied,
and a call made after the window has fully elapsed is allowed again. -/
theorem rateLimiter_sliding_window_witness :
    (runRateLimiter [] "bookmark-create-u1" 10 60000
        [0, 1, 2, 3, 4, 5, 6, 7, 8, 9, 10]).1 =
      List.replicate 10 true ++ [false] ∧
      (isAllowed (runRateLimiter [] "bookmark-create-u1" 10 60000
          [0, 1, 2, 3, 4, 5, 6, 7, 8, 9, 10]).2 "bookmark-create-u1" 10 60000 60010).1 =
        true :=
  rateLimiter_sliding_window "bookmark-create-u1" 10 60000
    [0, 1, 2, 3, 4, 5, 6, 7, 8, 9, 10] 60010 (by decide) (by decide)
    (by decide) (by decide)

/-! ## String and URL utilities

Character-list level helpers standing in for JavaScript String.includes,
the WHATWG URL hostname accessor and the regular expressions of
thumbnailService.ts, transcribed as ordered prefix searches with explicit
stop-character sets. -/

def charIsPrefix : List Char → List Char → Bool
  | [], _ => true
  | _ :: _, [] => false
  | c :: cs, d :: ds => c == d && charIsPrefix cs ds

def findSubstrTail (pat : List Char) : List Char → Option (List Char)
  | [] => if pat.isEmpty then some [] else none
  | c :: cs =>
    if charIsPrefix pat (c :: cs) then some ((c :: cs).drop pat.length)
    else findSubstrTail pat cs

def strIncludes (s pat : String) : Bool :=
  (findSubstrTail pat.data s.data).isSome

def strStartsWith (s pat : String) : Bool :=
  charIsPrefix pat.data s.data

/-- Hostname of an absolute http(s) URL as the WHATWG URL parser exposes
it: the authority section up to the first path, query or fragment
delimiter, with userinfo and port stripped and letters lowercased; none
when the URL cannot be parsed (the call sites catch that exception). -/
def urlHostname (url : String) : Option String :=
  match findSubstrTail "://".data url.data with
  | none => none
  | some rest =>
    let hostport := rest.takeWhile (fun c => !(c == '/') && !(c == '?') && !(c == '#'))
    let afterUser := (hostport.reverse.takeWhile (fun c => !(c == '@'))).reverse
    let host := afterUser.takeWhile (fun c => !(c == ':'))
    if host.isEmpty then none else some (String.mk (host.map Char.toLower))

/-- Ordered capture after the first occurring alternative: the regular
expressions of the ID extractors all have the shape prefix-alternation
followed by one capture group of maximal nonempty length bounded by a
stop-character class. -/
def matchCapture : List String → List Char → String → Option String
  | [], _, _ => none
  | p :: ps, stops, url =>
    match findSubstrTail p.data url.data with
    | some rest =>
      let cap := rest.takeWhile (fun c => !(stops.elem c))
      if cap.isEmpty then matchCapture ps stops url else some (String.mk cap)
    | none => matchCapture ps stops url

/-! ## ThumbnailService (src/services/thumbnailService.ts) -/

inductive ThumbKind
  | video
  | screenshot
  | favicon
  deriving DecidableEq

structure ThumbnailResult where
  thumbnail : Option String
  type : ThumbKind
  source : String
  isVideoThumbnail : Option Bool
  method : Option String
  deriving DecidableEq

def extractYouTubeVideoId (url : String) : Option String :=
  matchCapture
    ["youtube.com/watch?v=", "youtu.be/", "youtube.com/embed/",
      "youtube.com/v/", "youtube.com/shorts/"]
    ['&', '\n', '?', '#'] url

def extractVimeoVideoId (url : String) : Option String :=
  match findSubstrTail "vimeo.com/".data url.data with
  | none => none
  | some rest =>
    let rest2 := if charIsPrefix "video/".data rest then rest.drop 6 else rest
    let digits := rest2.takeWhile (fun c => c.isDigit)
    if digits.isEmpty then none else some (String.mk digits)

def extractDailymotionVideoId (url : String) : Option String :=
  match findSubstrTail "dailymotion.com/video/".data url.data with
  | none => none
  | some rest =>
    let vid := rest.takeWhile (fun c => !(c == '_') && !(c == '?'))
    if vid.isEmpty then none else some (String.mk vid)

def extractTwitchChannel (url : String) : Option String :=
  match findSubstrTail "twitch.tv/".data url.data with
  | none => none
  | some rest =>
    let ch := rest.takeWhile (fun c => !(c == '/') && !(c == '?'))
    if ch.isEmpty then none else some (String.mk ch)

structure VideoExtract where
  thumbnail : Option String
  platform : Option String
  deriving DecidableEq

def extractVideoThumbnail (url : String) : VideoExtract :=
  match urlHostname url with
  | none => ⟨none, none⟩
  | some domain =>
    if strIncludes domain "youtube.com" || strIncludes domain "youtu.be" then
      match extractYouTubeVideoId url with
      | some vid =>
        ⟨some ("https://img.youtube.com/vi/" ++ vid ++ "/maxresdefault.jpg"), some "youtube"⟩
      | none => ⟨none, none⟩
    else if strIncludes domain "vimeo.com" then
      match extractVimeoVideoId url with
      | some vid => ⟨some ("https://vumbnail.com/" ++ vid ++ ".jpg"), some "vimeo"⟩
      | none => ⟨none, none⟩
    else if strIncludes domain "dailymotion.com" then
      match extractDailymotionVideoId url with
      | some vid =>
        ⟨some ("https://www.dailymotion.com/thumbnail/video/" ++ vid), some "dailymotion"⟩
      | none => ⟨none, none⟩
    else if strIncludes domain "twitch.tv" then
      ⟨none, some "twitch"⟩
    else ⟨none, none⟩

def getFaviconUrl (url : String) : String :=
  match urlHostname url with
  | some domain => "https://www.google.com/s2/favicons?domain=" ++ domain ++ "&sz=64"
  | none => ""

/-- External collaborators of the inner fallback chain: the screenshot
API call (none models a thrown failure such as a missing key or a
non-2xx response), the Twitch profile-picture lookup chain, and the HEAD
content-type validation of candidate image URLs. -/
structure InnerEnv where
  screenshot : Option ThumbnailResult
  twitchProfile : String → Option String
  headOk : String → Bool

inductive FallbackEvent
  | render
  | twitchLookup
  | platformExtract
  | faviconCheck
  deriving DecidableEq

def twitchChannelFor (url : String) : Option String :=
  match urlHostname url with
  | some domain => if strIncludes domain "twitch.tv" then extractTwitchChannel url else none
  | none => none

def twitchOutcome (env : InnerEnv) (url : String) : Option String :=
  match twitchChannelFor url with
  | some ch => env.twitchProfile ch
  | none => none

def faviconStep (env : InnerEnv) (url : String) (tr : List FallbackEvent) :
    ThumbnailResult × List FallbackEvent :=
  let faviconUrl := getFaviconUrl url
  if faviconUrl = "" then
    (⟨none, ThumbKind.favicon, "none", none, none⟩, tr)
  else
    if env.headOk faviconUrl then
      (⟨some faviconUrl, ThumbKind.favicon, "google-favicon", none, none⟩,
        tr ++ [FallbackEvent.faviconCheck])
    else
      (⟨none, ThumbKind.favicon, "none", none, none⟩, tr ++ [FallbackEvent.faviconCheck])

def platformStep (env : InnerEnv) (url : String) (tr : List FallbackEvent) :
    ThumbnailResult × List FallbackEvent :=
  match (extractVideoThumbnail url).thumbnail with
  | some thumb =>
    if env.headOk thumb then
      (⟨some thumb, ThumbKind.video, (extractVideoThumbnail url).platform.getD "unknown",
        none, none⟩, tr ++ [FallbackEvent.platformExtract])
    else faviconStep env url (tr ++ [FallbackEvent.platformExtract])
  | none => faviconStep env url (tr ++ [FallbackEvent.platformExtract])

/-- Fallback chain of ThumbnailService.generateThumbnail with an event
trace of the attempts actually made: render API first, then for Twitch
hosts the asynchronous profile-picture lookup, then local platform
extraction with HEAD validation, then the Google favicon endpoint with
HEAD validation, then the empty favicon-kind result with source none. -/
def generateThumbnailInner (env : InnerEnv) (url : String) :
    ThumbnailResult × List FallbackEvent :=
  match env.screenshot with
  | some apiResult => (apiResult, [FallbackEvent.render])
  | none =>
    match twitchChannelFor url with
    | some channelName =>
      match env.twitchProfile channelName with
      | some pic =>
        (⟨some pic, ThumbKind.video, "twitch-profile", some true, some "profile-picture"⟩,
          [FallbackEvent.render, FallbackEvent.twitchLookup])
      | none => platformStep env url [FallbackEvent.render, FallbackEvent.twitchLookup]
    | none => platformStep env url [FallbackEvent.render]

theorem platformStep_success (env : InnerEnv) (url : String) (tr : List FallbackEvent)
    (thumb : String) (h1 : (extractVideoThumbnail url).thumbnail = some thumb)
    (h2 : env.headOk thumb = true) :
    platformStep env url tr =
      (⟨some thumb, ThumbKind.video, (extractVideoThumbnail url).platform.getD "unknown",
        none, none⟩, tr ++ [FallbackEvent.platformExtract]) := by
  unfold platformStep
  rw [h1]
  simp [h2]

theorem platformStep_fail (env : InnerEnv) (url : String) (tr : List FallbackEvent)
    (h : ∀ thumb, (extractVideoThumbnail url).thumbnail = some thumb →
      env.headOk thumb = false) :
    platformStep env url tr = faviconStep env url (tr ++ [FallbackEvent.platformExtract]) := by
  unfold platformStep
  cases hx : (extractVideoThumbnail url).thumbnail with
  | none => rfl
  | some thumb => simp [h thumb hx]

theorem faviconStep_result_fail (env : InnerEnv) (url : String) (tr : List FallbackEvent)
    (h : getFaviconUrl url = "" ∨ env.headOk (getFaviconUrl url) = false) :
    (faviconStep env url tr).1 = ⟨none, ThumbKind.favicon, "none", none, none⟩ := by
  unfold faviconStep
  rcases h with h | h
  · simp [h]
  · by_cases he : getFaviconUrl url = "" <;> simp [he, h]

theorem faviconStep_trace (env : InnerEnv) (url : String) (tr : List FallbackEvent) :
    (faviconStep env url tr).2 = tr ∨
      (faviconStep env url tr).2 = tr ++ [FallbackEvent.faviconCheck] := by
  unfold faviconStep
  by_cases he : getFaviconUrl url = ""
  · left
    simp [he]
  · by_cases hh : env.headOk (getFaviconUrl url) <;> right <;> simp [he, hh]

theorem platformStep_trace (env : InnerEnv) (url : String) (tr : List FallbackEvent) :
    (platformStep env url tr).2 = tr ++ [FallbackEvent.platformExtract] ∨
      (platformStep env url tr).2 =
        tr ++ [FallbackEvent.platformExtract, FallbackEvent.faviconCheck] := by
  unfold platformStep
  cases hx : (extractVideoThumbnail url).thumbnail with
  | some thumb =>
    by_cases hh : env.headOk thumb
    · left
      simp [hh]
    · rcases faviconStep_trace env url (tr ++ [FallbackEvent.platformExtract]) with h | h <;>
        simp [hh, h]
  | none =>
    rcases faviconStep_trace env url (tr ++ [FallbackEvent.platformExtract]) with h | h <;>
      simp [h]

/-- C5: the fallback chain is ordered and short-circuiting.  The render
attempt always comes first; the attempt trace is always an ordered
sublist of render, twitch lookup, platform extraction, favicon check; a
successful render returns immediately with no further attempts; a
successful twitch lookup stops before platform extraction; a validated
platform extraction stops before the favicon check; and when every tier
fails the result is the empty favicon-kind result with source none
rather than an error. -/
theorem fallback_chain_order (env : InnerEnv) (url : String) :
    (generateThumbnailInner env url).2.head? = some FallbackEvent.render ∧
    ((generateThumbnailInner env url).2).Sublist
      [FallbackEvent.render, FallbackEvent.twitchLookup, FallbackEvent.platformExtract,
        FallbackEvent.faviconCheck] ∧
    (∀ r, env.screenshot = some r →
      generateThumbnailInner env url = (r, [FallbackEvent.render])) ∧
    (∀ ch pic, env.screenshot = none → twitchChannelFor url = some ch →
      env.twitchProfile ch = some pic →
      generateThumbnailInner env url =
        (⟨some pic, ThumbKind.video, "twitch-profile", some true, some "profile-picture"⟩,
          [FallbackEvent.render, FallbackEvent.twitchLookup])) ∧
    (∀ thumb, env.screenshot = none → twitchOutcome env url = none →
      (extractVideoThumbnail url).thumbnail = some thumb → env.headOk thumb = true →
      (generateThumbnailInner env url).1 =
        ⟨some thumb, ThumbKind.video, (extractVideoThumbnail url).platform.getD "unknown",
          none, none⟩ ∧
        FallbackEvent.faviconCheck ∉ (generateThumbnailInner env url).2) ∧
    (env.screenshot = none → twitchOutcome env url = none →
      (∀ thumb, (extractVideoThumbnail url).thumbnail = some thumb →
        env.headOk thumb = false) →
      (getFaviconUrl url = "" ∨ env.headOk (getFaviconUrl url) = false) →
      (generateThumbnailInner env url).1 =
        ⟨none, ThumbKind.favicon, "none", none, none⟩) := by
  cases hs : env.screenshot with
  | some r =>
    have hout : generateThumbnailInner env url = (r, [FallbackEvent.render]) := by
      unfold generateThumbnailInner
      rw [hs]
    simp only [hout]
    refine ⟨rfl, by decide, ?_, ?_, ?_, ?_⟩
    · intro r2 hr2
      injection hr2 with h
      rw [h]
    · intro ch2 pic2 h1 _ _
      exact absurd h1 (by simp)
    · intro thumb h1 _ _ _
      exact absurd h1 (by simp)
    · intro h1 _ _ _
      exact absurd h1 (by simp)
  | none =>
    cases htw : twitchChannelFor url with
    | some ch =>
      cases hp : env.twitchProfile ch with
      | some pic =>
        have hout : generateThumbnailInner env url =
            (⟨some pic, ThumbKind.video, "twitch-profile", some true, some "profile-picture"⟩,
              [FallbackEvent.render, FallbackEvent.twitchLookup]) := by
          simp [generateThumbnailInner, hs, htw, hp]
        have hto : twitchOutcome env url = some pic := by
          simp [twitchOutcome, htw, hp]
        simp only [hout]
        refine ⟨rfl, by decide, ?_, ?_, ?_, ?_⟩
        · intro r2 hr2
          exact absurd hr2 (by simp)
        · intro ch2 pic2 _ hch2 hp2
          injection hch2 with hch
          subst hch
          rw [hp] at hp2
          injection hp2 with hpp
          rw [hpp]
        · intro thumb _ hto2 _ _
          rw [hto] at hto2
          exact absurd hto2 (by simp)
        · intro _ hto2 _ _
          rw [hto] at hto2
          exact absurd hto2 (by simp)
      | none =>
        have hout : generateThumbnailInner env url =
            platformStep env url [FallbackEvent.render, FallbackEvent.twitchLookup] := by
          simp [generateThumbnailInner, hs, htw, hp]
        refine ⟨?_, ?_, ?_, ?_, ?_, ?_⟩
        · rcases platformStep_trace env url [FallbackEvent.render, FallbackEvent.twitchLookup]
            with h | h <;> rw [hout, h] <;> rfl
        · rcases platformStep_trace env url [FallbackEvent.render, FallbackEvent.twitchLookup]
            with h | h <;> rw [hout, h] <;> decide
        · intro r2 hr2
          exact absurd hr2 (by simp)
        · intro ch2 pic2 _ hch2 hp2
          injection hch2 with hch
          subst hch
          rw [hp] at hp2
          exact absurd hp2 (by simp)
        · intro thumb _ _ hx hh
          rw [hout, platformStep_success env url _ thumb hx hh]
          refine ⟨rfl, ?_⟩
          simp
        · intro _ _ hfail hfav
          rw [hout, platformStep_fail env url _ hfail]
          exact faviconStep_result_fail env url _ hfav
    | none =>
      have hout : generateThumbnailInner env url =
          platformStep env url [FallbackEvent.render] := by
        unfold generateThumbnailInner
        rw [hs, htw]
      refine ⟨?_, ?_, ?_, ?_, ?_, ?_⟩
      · rcases platformStep_trace env url [FallbackEvent.render]
          with h | h <;> rw [hout, h] <;> rfl
      · rcases platformStep_trace env url [FallbackEvent.render]
          with h | h <;> rw [hout, h] <;> decide
      · intro r2 hr2
        exact absurd hr2 (by simp)
      · intro ch2 pic2 _ hch2 _
        exact absurd hch2 (by simp)
      · intro thumb _ _ hx hh
        rw [hout, platformStep_success env url _ thumb hx hh]
        refine ⟨rfl, ?_⟩
        simp
      · intro _ _ hfail hfav
        rw [hout, platformStep_fail env url _ hfail]
        exact faviconStep_result_fail env url _ hfav

/-- Witness for C5: with a failed render, no platform match and a failed
favicon HEAD validation, resolution of a plain URL ends in the empty
favicon-kind result with source none. -/
theorem fallback_chain_order_witness :
    (generateThumbnailInner ⟨none, fun _ => none, fun _ => false⟩ "https://example.com").1 =
      ⟨none, ThumbKind.favicon, "none", none, none⟩ :=
  (fallback_chain_order ⟨none, fun _ => none, fun _ => false⟩ "https://example.com").2.2.2.2.2
    rfl (by decide) (fun _ _ => rfl) (Or.inr rfl)

/-- C9: resolving the YouTube watch URL with no render-service result
goes through the platform extractor, which recognizes the watch shape,
extracts the ID abc123 and instantiates the maxresdefault template,
yielding a video-kind result. -/
theorem youtube_watch_extraction (env : InnerEnv)
    (hs : env.screenshot = none)
    (hh : env.headOk "https://img.youtube.com/vi/abc123/maxresdefault.jpg" = true) :
    extractYouTubeVideoId "https://youtube.com/watch?v=abc123" = some "abc123" ∧
    (generateThumbnailInner env "https://youtube.com/watch?v=abc123").1 =
      ⟨some "https://img.youtube.com/vi/abc123/maxresdefault.jpg", ThumbKind.video,
        "youtube", none, none⟩ := by
  have hx : extractVideoThumbnail "https://youtube.com/watch?v=abc123" =
      ⟨some "https://img.youtube.com/vi/abc123/maxresdefault.jpg", some "youtube"⟩ := by
    decide
  have htw : twitchChannelFor "https://youtube.com/watch?v=abc123" = none := by decide
  refine ⟨by decide, ?_⟩
  have hout : generateThumbnailInner env "https://youtube.com/watch?v=abc123" =
      platformStep env "https://youtube.com/watch?v=abc123" [FallbackEvent.render] := by
    unfold generateThumbnailInner
    rw [hs, htw]
  rw [hout, platformStep_success env "https://youtube.com/watch?v=abc123"
    [FallbackEvent.render] "https://img.youtube.com/vi/abc123/maxresdefault.jpg"
    (by rw [hx]) hh]
  simp [hx]

/-- Witness for C9 at a concrete environment with a failed render call
and a successful HEAD validation of the YouTube image host. -/
theorem youtube_watch_extraction_witness :
    extractYouTubeVideoId "https://youtube.com/watch?v=abc123" = some "abc123" ∧
    (generateThumbnailInner ⟨none, fun _ => none, fun _ => true⟩
        "https://youtube.com/watch?v=abc123").1 =
      ⟨some "https://img.youtube.com/vi/abc123/maxresdefault.jpg", ThumbKind.video,
        "youtube", none, none⟩ :=
  youtube_watch_extraction ⟨none, fun _ => none, fun _ => true⟩ rfl rfl

/-! ## EnhancedThumbnailService (the cache-optimized service revision)

State carries the two cacheService tiers (whose values at the keys used
by this service are bookmark lists, StoredThumbnail records, cached
nulls, or cooldown timestamps), the localStorage thumbnail shortcuts
keyed thumbnail_url, the Firestore thumbnail_metadata collection in
insertion order, and the Firebase Storage bucket as a path-keyed map.
The environment carries the URL hasher, the authenticated user, the
clock, the inner thumbnailService result for this URL, upload and addDoc
outcomes, and the getDownloadURL oracle. -/

structure Bookmark where
  id : String
  url : String
  title : String
  deriving DecidableEq

structure StoredThumbnail where
  id : String
  url : String
  storageUrl : String
  storagePath : String
  type : ThumbKind
  source : String
  createdAt : Int
  updatedAt : Int
  accessCount : Int
  lastAccessedAt : Int
  urlHash : String
  deriving DecidableEq

structure MetaDoc where
  docId : String
  url : String
  urlHash : String
  storageUrl : String
  storagePath : String
  type : ThumbKind
  source : String
  createdAt : Int
  updatedAt : Int
  accessCount : Int
  lastAccessedAt : Int
  userId : String
  deriving DecidableEq

inductive CacheVal
  | thumb (t : StoredThumbnail)
  | nullv
  | num (n : Int)
  | bookmarks (bs : List Bookmark)
  deriving DecidableEq

/-- Truthiness of a cached value under JavaScript coercion: null and the
number zero are falsy, records and arrays (even empty ones) are truthy. -/
def jsTruthy : CacheVal → Bool
  | CacheVal.thumb _ => true
  | CacheVal.nullv => false
  | CacheVal.num n => !(n == 0)
  | CacheVal.bookmarks _ => true

structure LocalThumb where
  url : String
  timestamp : Int
  expires : Int
  deriving DecidableEq

structure PipeState where
  mem : MemCache CacheVal
  loc : LocalCache CacheVal
  thumbLoc : List (String × LocalThumb)
  metadata : List MetaDoc
  storage : List (String × String)
  deriving DecidableEq

structure EnhEnv where
  hash : String → String
  userId : String
  now : Int
  inner : ThumbnailResult
  uploadOk : Bool
  metaOk : Bool
  downloadUrl : String → String

inductive EnhResult
  | ok (r : ThumbnailResult)
  | accessDenied
  deriving DecidableEq

structure EnhOut where
  result : EnhResult
  state : PipeState
  innerCalled : Bool
  deriving DecidableEq

def cacheRemove (st : PipeState) (key : String) : PipeState :=
  { st with mem := jsMapDelete st.mem key, loc := jsMapDelete st.loc ("cache_" ++ key) }

def userHasAccessToUrlS (env : EnhEnv) (st : PipeState) (url : String) :
    Bool × PipeState :=
  let ck := "user_bookmarks_" ++ env.userId
  let mres := getMemory env.now st.mem ck
  let st1 := { st with mem := mres.2 }
  let truthyMem := match mres.1 with | some v => jsTruthy v | none => false
  if truthyMem then
    match mres.1 with
    | some (CacheVal.bookmarks bs) => (bs.any (fun b => b.url == url), st1)
    | _ => (true, st1)
  else
    let lres := getLocal env.now st1.loc ck
    let st2 := { st1 with loc := lres.2 }
    match lres.1 with
    | some (CacheVal.bookmarks bs) => (bs.any (fun b => b.url == url), st2)
    | _ => (true, st2)

def checkThumbnailExistsS (env : EnhEnv) (st : PipeState) (urlHash : String) :
    Option StoredThumbnail × PipeState :=
  let ck := "thumbnail_metadata_" ++ urlHash
  let mres := getMemory env.now st.mem ck
  let st1 := { st with mem := mres.2 }
  match mres.1 with
  | some (CacheVal.thumb t) => (some t, st1)
  | _ =>
    match st1.metadata.find? (fun d => d.urlHash == urlHash) with
    | none =>
      (none, { st1 with mem := setMemory env.now st1.mem ck CacheVal.nullv (5 * 60 * 1000) })
    | some d =>
      let t : StoredThumbnail :=
        ⟨d.docId, d.url, d.storageUrl, d.storagePath, d.type, d.source, d.createdAt,
          d.updatedAt, d.accessCount, d.lastAccessedAt, d.urlHash⟩
      (some t,
        { st1 with mem := setMemory env.now st1.mem ck (CacheVal.thumb t) (30 * 60 * 1000) })

def getStoredThumbnailByIdS (st : PipeState) (thumbnailId : String) :
    Option StoredThumbnail :=
  match st.metadata.find? (fun d => d.docId == thumbnailId) with
  | none => none
  | some d =>
    some ⟨d.docId, d.url, d.storageUrl, d.storagePath, d.type, d.source, d.createdAt,
      d.updatedAt, d.accessCount, d.lastAccessedAt, d.urlHash⟩

def updateAccessStatsS (env : EnhEnv) (st : PipeState) (thumbnailId : String) : PipeState :=
  let ck := "thumbnail_access_" ++ thumbnailId
  let mres := getMemory env.now st.mem ck
  let st1 := { st with mem := mres.2 }
  let lastUpdate : Int := match mres.1 with | some (CacheVal.num n) => n | _ => 0
  if env.now - lastUpdate < 24 * 60 * 60 * 1000 then st1
  else
    match st1.metadata.find? (fun d => d.docId == thumbnailId) with
    | none => st1
    | some _ =>
      let st2 := { st1 with metadata := st1.metadata.map (fun d : MetaDoc =>
        if d.docId == thumbnailId then
          { d with lastAccessedAt := env.now, accessCount := d.accessCount + 1 }
        else d) }
      let st3 := { st2 with
        mem := setMemory env.now st2.mem ck (CacheVal.num env.now) (24 * 60 * 60 * 1000) }
      match getStoredThumbnailByIdS st3 thumbnailId with
      | some t => cacheRemove st3 ("thumbnail_metadata_" ++ t.urlHash)
      | none => st3

def cacheThumbnailLocallyS (env : EnhEnv) (st : PipeState) (url thumbnailUrl : String) :
    PipeState :=
  let entry : LocalThumb := ⟨thumbnailUrl, env.now, env.now + 7 * 24 * 60 * 60 * 1000⟩
  { st with thumbLoc := jsMapSet st.thumbLoc ("thumbnail_" ++ url) entry }

def getCachedThumbnailS (env : EnhEnv) (st : PipeState) (url : String) :
    Option String × PipeState :=
  match jsMapGet st.thumbLoc ("thumbnail_" ++ url) with
  | none => (none, st)
  | some e =>
    if env.now > e.expires then
      (none, { st with thumbLoc := jsMapDelete st.thumbLoc ("thumbnail_" ++ url) })
    else (some e.url, st)

def uploadThumbnailToStorageS (env : EnhEnv) (st : PipeState) (thumbnail urlHash : String) :
    Option (String × String) × PipeState :=
  if env.uploadOk then
    let storagePath := "thumbnails/" ++ urlHash ++ ".jpg"
    (some (env.downloadUrl storagePath, storagePath),
      { st with storage := jsMapSet st.storage storagePath thumbnail })
  else (none, st)

def storeThumbnailMetadataS (env : EnhEnv) (st : PipeState)
    (url urlHash storageUrl storagePath : String) (type : ThumbKind) (source : String) :
    PipeState :=
  { st with metadata := st.metadata ++
      [⟨"doc_" ++ toString st.metadata.length, url, urlHash, storageUrl, storagePath, type,
        source, env.now, env.now, 1, env.now, env.userId⟩] }

/-- Persistence step of generateThumbnail after a dedup miss: only a
base64 data-URL screenshot result is uploaded to storage and registered
in the metadata collection; a direct-link result is cached locally only
and returned unchanged. -/
def genFresh (env : EnhEnv) (st : PipeState) (url urlHash : String) : EnhOut :=
  let r := env.inner
  match r.thumbnail with
  | none => ⟨EnhResult.ok r, st, true⟩
  | some th =>
    let isDirectUrl := !(strStartsWith th "data:")
    if !isDirectUrl && (r.type == ThumbKind.screenshot) then
      match uploadThumbnailToStorageS env st th urlHash with
      | (some (storageUrl, storagePath), st1) =>
        if env.metaOk then
          let st2 := storeThumbnailMetadataS env st1 url urlHash storageUrl storagePath
            r.type r.source
          let st3 := cacheThumbnailLocallyS env st2 url storageUrl
          ⟨EnhResult.ok ⟨some storageUrl, r.type, "firebase-uploaded-" ++ r.source,
            r.isVideoThumbnail, r.method⟩, st3, true⟩
        else ⟨EnhResult.ok r, cacheThumbnailLocallyS env st1 url th, true⟩
      | (none, st1) => ⟨EnhResult.ok r, cacheThumbnailLocallyS env st1 url th, true⟩
    else
      if isDirectUrl then ⟨EnhResult.ok r, cacheThumbnailLocallyS env st url th, true⟩
      else ⟨EnhResult.ok r, st, true⟩

/-- Resolution after the authorization step: read (and lazily expire) the
local thumbnail shortcut, hash the URL, run the dedup check, and either
serve a stored screenshot-kind record (updating access stats and the
local cache, with no inner-service call) or fall through to the fresh
generation path. -/
def genBody (env : EnhEnv) (st : PipeState) (url : String) : EnhOut :=
  let st0 := (getCachedThumbnailS env st url).2
  let urlHash := env.hash url
  let ck := checkThumbnailExistsS env st0 urlHash
  match ck.1 with
  | some ex =>
    if ex.type == ThumbKind.screenshot then
      let st1 := updateAccessStatsS env ck.2 ex.id
      let st2 := cacheThumbnailLocallyS env st1 url ex.storageUrl
      ⟨EnhResult.ok ⟨some ex.storageUrl, ex.type, "firebase-storage-" ++ ex.source,
        some false, some "firebase-cache"⟩, st2, false⟩
    else genFresh env ck.2 url urlHash
  | none => genFresh env ck.2 url urlHash

/-- Main generateThumbnail of the enhanced service: access check unless
skipped; an access-denied throw lands in the outer catch, which retries
the plain inner service only when a fresh access check passes and
otherwise rethrows the access-denied error. -/
def generateThumbnailS (env : EnhEnv) (st : PipeState) (url : String)
    (skipAccessCheck : Bool) : EnhOut :=
  if skipAccessCheck then genBody env st url
  else
    let acc := userHasAccessToUrlS env st url
    if acc.1 then genBody env acc.2 url
    else
      let acc2 := userHasAccessToUrlS env acc.2 url
      if acc2.1 then ⟨EnhResult.ok env.inner, acc2.2, true⟩
      else ⟨EnhResult.accessDenied, acc2.2, false⟩

/-- Regeneration: bypasses the dedup check entirely, clears the local
shortcut and the metadata cache entry for the canonical hash, renders
fresh, and persists a screenshot result under the uniquified key
hash_uniqueId so the canonical record is never touched; direct-link
results are only cached locally. -/
def regenerateThumbnailS (env : EnhEnv) (st : PipeState) (url : String)
    (forceNew : Bool) (uniqueId : String) : EnhOut :=
  let acc := userHasAccessToUrlS env st url
  if !acc.1 then ⟨EnhResult.accessDenied, acc.2, false⟩
  else
    let st1 := if forceNew then
        cacheRemove
          { acc.2 with thumbLoc := jsMapDelete acc.2.thumbLoc ("thumbnail_" ++ url) }
          ("thumbnail_metadata_" ++ env.hash url)
      else acc.2
    let r := env.inner
    match r.thumbnail with
    | none => ⟨EnhResult.ok r, st1, true⟩
    | some th =>
      let isDirectUrl := !(strStartsWith th "data:")
      if !isDirectUrl && (r.type == ThumbKind.screenshot) then
        let uniqueHash := env.hash url ++ "_" ++ uniqueId
        match uploadThumbnailToStorageS env st1 th uniqueHash with
        | (some (storageUrl, storagePath), st2) =>
          if env.metaOk then
            let st3 := storeThumbnailMetadataS env st2 url uniqueHash storageUrl storagePath
              r.type ("regenerated-" ++ r.source)
            let st4 := cacheThumbnailLocallyS env st3 url storageUrl
            ⟨EnhResult.ok ⟨some storageUrl, r.type, "regenerated-" ++ r.source,
              r.isVideoThumbnail, some "regenerated"⟩, st4, true⟩
          else ⟨EnhResult.ok r, st2, true⟩
        | (none, st2) => ⟨EnhResult.ok r, st2, true⟩
      else
        if isDirectUrl then ⟨EnhResult.ok r, cacheThumbnailLocallyS env st1 url th, true⟩
        else ⟨EnhResult.ok r, st1, true⟩

theorem genFresh_result_ok (env : EnhEnv) (st : PipeState) (url urlHash : String) :
    (genFresh env st url urlHash).result ≠ EnhResult.accessDenied := by
  unfold genFresh
  dsimp only
  repeat' split
  all_goals simp

theorem genBody_result_ok (env : EnhEnv) (st : PipeState) (url : String) :
    (genBody env st url).result ≠ EnhResult.accessDenied := by
  unfold genBody
  dsimp only
  split
  · split
    · simp
    · exact genFresh_result_ok env _ url (env.hash url)
  · exact genFresh_result_ok env _ url (env.hash url)

theorem userHasAccess_cached_mem (env : EnhEnv) (st : PipeState) (url : String)
    (bs : List Bookmark) (e : CacheEntry CacheVal)
    (hmem : jsMapGet st.mem ("user_bookmarks_" ++ env.userId) = some e)
    (hdata : e.data = CacheVal.bookmarks bs) (hun : ¬ env.now > e.expires) :
    userHasAccessToUrlS env st url = (bs.any (fun b => b.url == url), st) := by
  have hget : getMemory env.now st.mem ("user_bookmarks_" ++ env.userId) =
      (some (CacheVal.bookmarks bs), st.mem) := by
    unfold getMemory
    rw [hmem]
    simp [hun, hdata]
  simp [userHasAccessToUrlS, hget, jsTruthy]

theorem userHasAccess_no_cache (env : EnhEnv) (st : PipeState) (url : String)
    (hmem : jsMapGet st.mem ("user_bookmarks_" ++ env.userId) = none)
    (hloc : jsMapGet st.loc ("cache_" ++ ("user_bookmarks_" ++ env.userId)) = none) :
    userHasAccessToUrlS env st url = (true, st) := by
  have hget : getMemory env.now st.mem ("user_bookmarks_" ++ env.userId) =
      (none, st.mem) := by
    unfold getMemory
    rw [hmem]
  have hgetl : getLocal env.now st.loc ("user_bookmarks_" ++ env.userId) =
      (none, st.loc) := by
    unfold getLocal
    rw [hloc]
  simp [userHasAccessToUrlS, hget, hgetl]

theorem userHasAccess_cached_local (env : EnhEnv) (st : PipeState) (url : String)
    (bs : List Bookmark) (e : CacheEntry CacheVal)
    (hmem : jsMapGet st.mem ("user_bookmarks_" ++ env.userId) = none)
    (hloc : jsMapGet st.loc ("cache_" ++ ("user_bookmarks_" ++ env.userId)) = some e)
    (hdata : e.data = CacheVal.bookmarks bs) (hun : ¬ env.now > e.expires) :
    userHasAccessToUrlS env st url = (bs.any (fun b => b.url == url), st) := by
  have hget : getMemory env.now st.mem ("user_bookmarks_" ++ env.userId) =
      (none, st.mem) := by
    unfold getMemory
    rw [hmem]
  have hgetl : getLocal env.now st.loc ("user_bookmarks_" ++ env.userId) =
      (some (CacheVal.bookmarks bs), st.loc) := by
    unfold getLocal
    rw [hloc]
    simp [hun, hdata]
  simp [userHasAccessToUrlS, hget, hgetl, jsTruthy]

/-- C1 counterexample: a caller owning no bookmark at all (empty caches,
cold start) is allowed by the guard, although the claim requires that a
caller owning no bookmark whose URL equals the given URL be denied.  The
guard fails open when no cached bookmark list is available. -/
theorem access_guard_counterexample :
    ¬ ((userHasAccessToUrlS
        ⟨fun u => u, "u1", 0, ⟨none, ThumbKind.favicon, "none", none, none⟩, true, true,
          fun p => p⟩
        ⟨[], [], [], [], []⟩ "https://example.com").1 =
      ([] : List Bookmark).any (fun b => b.url == "https://example.com")) := by
  decide

/-- C1 (amended): if skip is true the request is always allowed (the
resolver never reports access denied); otherwise, when a cached bookmark
list for the caller is available in the memory tier or, failing that, in
the local tier, the guard allows the request exactly when that list
contains a bookmark whose URL equals the given URL, and generateThumbnail
with skipAccessCheck false reports the access-denied error when it does
not; when no cached bookmark list is available at all, the guard fails
open and allows the request. -/
theorem access_guard_authorization (env : EnhEnv) (st : PipeState) (url : String) :
    ((generateThumbnailS env st url true).result ≠ EnhResult.accessDenied) ∧
    (∀ bs e, jsMapGet st.mem ("user_bookmarks_" ++ env.userId) = some e →
      e.data = CacheVal.bookmarks bs → ¬ env.now > e.expires →
      ((userHasAccessToUrlS env st url).1 = bs.any (fun b => b.url == url) ∧
        (bs.any (fun b => b.url == url) = false →
          generateThumbnailS env st url false =
            ⟨EnhResult.accessDenied, st, false⟩))) ∧
    (jsMapGet st.mem ("user_bookmarks_" ++ env.userId) = none →
      jsMapGet st.loc ("cache_" ++ ("user_bookmarks_" ++ env.userId)) = none →
      userHasAccessToUrlS env st url = (true, st)) ∧
    (∀ bs e, jsMapGet st.mem ("user_bookmarks_" ++ env.userId) = none →
      jsMapGet st.loc ("cache_" ++ ("user_bookmarks_" ++ env.userId)) = some e →
      e.data = CacheVal.bookmarks bs → ¬ env.now > e.expires →
      (userHasAccessToUrlS env st url).1 = bs.any (fun b => b.url == url)) := by
  refine ⟨?_, ?_, ?_, ?_⟩
  · have h := genBody_result_ok env st url
    simpa [generateThumbnailS] using h
  · intro bs e hmem hdata hun
    have hacc := userHasAccess_cached_mem env st url bs e hmem hdata hun
    refine ⟨by rw [hacc], ?_⟩
    intro hfalse
    unfold generateThumbnailS
    rw [if_neg (by simp)]
    simp only [hacc, hfalse]
    simp
  · intro hmem hloc
    exact userHasAccess_no_cache env st url hmem hloc
  · intro bs e hmem hloc hdata hun
    rw [userHasAccess_cached_local env st url bs e hmem hloc hdata hun]

/-- Witness for C1: a caller whose cached bookmark list holds only a
different URL is denied on a non-skipped call, and the same state with
skip true is served without an access-denied error. -/
theorem access_guard_authorization_witness :
    (userHasAccessToUrlS
        ⟨fun u => u, "u1", 0, ⟨none, ThumbKind.favicon, "none", none, none⟩, true, true,
          fun p => p⟩
        ⟨[("user_bookmarks_u1",
            ⟨CacheVal.bookmarks [⟨"b1", "https://other.com", "t"⟩], 0, 10000⟩)],
          [], [], [], []⟩ "https://example.com").1 = false ∧
    generateThumbnailS
        ⟨fun u => u, "u1", 0, ⟨none, ThumbKind.favicon, "none", none, none⟩, true, true,
          fun p => p⟩
        ⟨[("user_bookmarks_u1",
            ⟨CacheVal.bookmarks [⟨"b1", "https://other.com", "t"⟩], 0, 10000⟩)],
          [], [], [], []⟩ "https://example.com" false =
      ⟨EnhResult.accessDenied,
        ⟨[("user_bookmarks_u1",
            ⟨CacheVal.bookmarks [⟨"b1", "https://other.com", "t"⟩], 0, 10000⟩)],
          [], [], [], []⟩, false⟩ ∧
    (generateThumbnailS
        ⟨fun u => u, "u1", 0, ⟨none, ThumbKind.favicon, "none", none, none⟩, true, true,
          fun p => p⟩
        ⟨[("user_bookmarks_u1",
            ⟨CacheVal.bookmarks [⟨"b1", "https://other.com", "t"⟩], 0, 10000⟩)],
          [], [], [], []⟩ "https://example.com" true).result ≠
      EnhResult.accessDenied := by
  have h := access_guard_authorization
    ⟨fun u => u, "u1", 0, ⟨none, ThumbKind.favicon, "none", none, none⟩, true, true,
      fun p => p⟩
    ⟨[("user_bookmarks_u1",
        ⟨CacheVal.bookmarks [⟨"b1", "https://other.com", "t"⟩], 0, 10000⟩)],
      [], [], [], []⟩ "https://example.com"
  have h2 := h.2.1 [⟨"b1", "https://other.com", "t"⟩]
    ⟨CacheVal.bookmarks [⟨"b1", "https://other.com", "t"⟩], 0, 10000⟩ rfl rfl (by decide)
  exact ⟨h2.1, h2.2 rfl, h.1⟩

theorem genFresh_innerCalled (env : EnhEnv) (st : PipeState) (url urlHash : String) :
    (genFresh env st url urlHash).innerCalled = true := by
  unfold genFresh
  dsimp only
  repeat' split
  all_goals simp

theorem find?_docId_map_update (l : List MetaDoc) (id : String) (now : Int) :
    (l.map (fun d2 : MetaDoc => if d2.docId == id then
      { d2 with lastAccessedAt := now, accessCount := d2.accessCount + 1 } else d2)).find?
        (fun d3 => d3.docId == id) =
      (l.find? (fun d3 => d3.docId == id)).map (fun d2 =>
        { d2 with lastAccessedAt := now, accessCount := d2.accessCount + 1 }) := by
  induction l with
  | nil => rfl
  | cons d t ih =>
    by_cases h : d.docId = id
    · rw [List.map_cons, if_pos (by simp [h]),
        List.find?_cons_of_pos _ (by simp [h]),
        List.find?_cons_of_pos _ (by simp [h])]
      rfl
    · rw [List.map_cons, if_neg (by simp [h]),
        List.find?_cons_of_neg _ (by simp [h]),
        List.find?_cons_of_neg _ (by simp [h])]
      exact ih

theorem updateAccessStats_writes (env : EnhEnv) (st : PipeState) (id : String) (d : MetaDoc)
    (hcool : jsMapGet st.mem ("thumbnail_access_" ++ id) = none)
    (hbig : 24 * 60 * 60 * 1000 ≤ env.now)
    (hd : st.metadata.find? (fun d2 => d2.docId == id) = some d) :
    (updateAccessStatsS env st id).metadata =
      st.metadata.map (fun d2 : MetaDoc => if d2.docId == id then
        { d2 with lastAccessedAt := env.now, accessCount := d2.accessCount + 1 } else d2) := by
  have hget : getMemory env.now st.mem ("thumbnail_access_" ++ id) = (none, st.mem) := by
    unfold getMemory
    rw [hcool]
  have hc : ¬ (env.now - 0 < 24 * 60 * 60 * 1000) := by omega
  unfold updateAccessStatsS
  dsimp only
  rw [hget]
  dsimp only
  rw [if_neg hc, hd]
  dsimp only
  split <;> simp [cacheRemove]

/-- C3: the dedup check satisfies a resolution only for screenshot-kind
records.  Given that the Metadata Store lookup under the URL's hash
produced a record: if its kind is screenshot, the resolver returns that
record's stored blob reference with the firebase-cache method, never
invokes the inner rendering chain, writes the local seven-day thumbnail
shortcut, and (when the cooldown allows) increments the record's access
count and refreshes its last-accessed time; if its kind is video or
favicon, the resolver does invoke the inner fallback chain. -/
theorem dedup_screenshot_only (env : EnhEnv) (st : PipeState) (url : String)
    (ex : StoredThumbnail) (st1 : PipeState)
    (hck : checkThumbnailExistsS env (getCachedThumbnailS env st url).2 (env.hash url) =
      (some ex, st1)) :
    (ex.type = ThumbKind.screenshot →
      (genBody env st url =
        ⟨EnhResult.ok ⟨some ex.storageUrl, ex.type, "firebase-storage-" ++ ex.source,
          some false, some "firebase-cache"⟩,
          cacheThumbnailLocallyS env (updateAccessStatsS env st1 ex.id) url ex.storageUrl,
          false⟩ ∧
        jsMapGet (genBody env st url).state.thumbLoc ("thumbnail_" ++ url) =
          some ⟨ex.storageUrl, env.now, env.now + 7 * 24 * 60 * 60 * 1000⟩ ∧
        (∀ d, st1.metadata.find? (fun d2 => d2.docId == ex.id) = some d →
          jsMapGet st1.mem ("thumbnail_access_" ++ ex.id) = none →
          24 * 60 * 60 * 1000 ≤ env.now →
          (genBody env st url).state.metadata.find? (fun d3 => d3.docId == ex.id) =
            some ({ d with lastAccessedAt := env.now, accessCount := d.accessCount + 1 })))) ∧
    (ex.type ≠ ThumbKind.screenshot → (genBody env st url).innerCalled = true) := by
  constructor
  · intro hscr
    have hgb : genBody env st url =
        ⟨EnhResult.ok ⟨some ex.storageUrl, ex.type, "firebase-storage-" ++ ex.source,
          some false, some "firebase-cache"⟩,
          cacheThumbnailLocallyS env (updateAccessStatsS env st1 ex.id) url ex.storageUrl,
          false⟩ := by
      unfold genBody
      dsimp only
      rw [hck]
      simp [hscr]
    refine ⟨hgb, ?_, ?_⟩
    · rw [hgb]
      exact jsMapGet_set_self _ _ _
    · intro d hd hcool hbig
      rw [hgb]
      show (cacheThumbnailLocallyS env (updateAccessStatsS env st1 ex.id) url
        ex.storageUrl).metadata.find? (fun d3 => d3.docId == ex.id) = _
      rw [show (cacheThumbnailLocallyS env (updateAccessStatsS env st1 ex.id) url
        ex.storageUrl).metadata = (updateAccessStatsS env st1 ex.id).metadata from rfl]
      rw [updateAccessStats_writes env st1 ex.id d hcool hbig hd]
      rw [find?_docId_map_update st1.metadata ex.id env.now, hd]
      rfl
  · intro hscr
    have hgb : genBody env st url = genFresh env st1 url (env.hash url) := by
      unfold genBody
      dsimp only
      rw [hck]
      simp [hscr]
    rw [hgb]
    exact genFresh_innerCalled env st1 url (env.hash url)

theorem getCachedThumbnail_frame (env : EnhEnv) (s : PipeState) (url : String) :
    (getCachedThumbnailS env s url).2.storage = s.storage ∧
      (getCachedThumbnailS env s url).2.metadata = s.metadata := by
  unfold getCachedThumbnailS
  repeat' split
  all_goals exact ⟨rfl, rfl⟩

theorem checkThumbnailExists_frame (env : EnhEnv) (s : PipeState) (h : String) :
    (checkThumbnailExistsS env s h).2.storage = s.storage ∧
      (checkThumbnailExistsS env s h).2.metadata = s.metadata := by
  unfold checkThumbnailExistsS
  dsimp only
  repeat' split
  all_goals exact ⟨rfl, rfl⟩

theorem updateAccessStats_storage (env : EnhEnv) (s : PipeState) (id : String) :
    (updateAccessStatsS env s id).storage = s.storage := by
  unfold updateAccessStatsS
  dsimp only
  repeat' split
  all_goals simp [cacheRemove]

theorem userHasAccess_frame (env : EnhEnv) (s : PipeState) (url : String) :
    (userHasAccessToUrlS env s url).2.storage = s.storage ∧
      (userHasAccessToUrlS env s url).2.metadata = s.metadata ∧
      (userHasAccessToUrlS env s url).2.thumbLoc = s.thumbLoc := by
  unfold userHasAccessToUrlS
  dsimp only
  repeat' split
  all_goals exact ⟨rfl, rfl, rfl⟩

theorem genFresh_storage_unchanged (env : EnhEnv) (st : PipeState) (url uh : String)
    (h : ¬ (env.inner.type = ThumbKind.screenshot ∧
      ∃ th, env.inner.thumbnail = some th ∧ strStartsWith th "data:" = true)) :
    (genFresh env st url uh).state.storage = st.storage := by
  unfold genFresh
  dsimp only
  cases hth : env.inner.thumbnail with
  | none => rfl
  | some th =>
    dsimp only
    by_cases hc : strStartsWith th "data:" = true ∧ env.inner.type = ThumbKind.screenshot
    · exact absurd ⟨hc.2, th, hth, hc.1⟩ h
    · have hcb : ¬ ((!(!strStartsWith th "data:") && (env.inner.type == ThumbKind.screenshot))
          = true) := by
        simpa using hc
      rw [if_neg hcb]
      split <;> rfl

theorem genBody_storage_unchanged (env : EnhEnv) (st : PipeState) (url : String)
    (h : ¬ (env.inner.type = ThumbKind.screenshot ∧
      ∃ th, env.inner.thumbnail = some th ∧ strStartsWith th "data:" = true)) :
    (genBody env st url).state.storage = st.storage := by
  have hgc := (getCachedThumbnail_frame env st url).1
  have hck := (checkThumbnailExists_frame env (getCachedThumbnailS env st url).2
    (env.hash url)).1
  unfold genBody
  dsimp only
  split
  · split
    · show (updateAccessStatsS env _ _).storage = st.storage
      rw [updateAccessStats_storage, hck, hgc]
    · rw [genFresh_storage_unchanged env _ url _ h, hck, hgc]
  · rw [genFresh_storage_unchanged env _ url _ h, hck, hgc]

theorem genFresh_direct_link (env : EnhEnv) (st : PipeState) (url uh th : String)
    (hth : env.inner.thumbnail = some th) (hdir : strStartsWith th "data:" = false) :
    genFresh env st url uh =
      ⟨EnhResult.ok env.inner, cacheThumbnailLocallyS env st url th, true⟩ := by
  unfold genFresh
  dsimp only
  rw [hth]
  simp [hdir]

/-- Environment used by the C2 concrete runs: identity hasher, a
direct-link video result from the inner service, and successful store
oracles. -/
def c2Env : EnhEnv :=
  ⟨fun u => u, "u1", 0,
    ⟨some "https://v.example/t.jpg", ThumbKind.video, "youtube", some true, none⟩, true,
    true, fun p => "dl:" ++ p⟩

/-- C2 counterexample: resolving a fresh URL whose inner result is a
direct-link video thumbnail leaves the Metadata Store empty — no
metadata-only entry with blob reference equal to the direct URL is
written — although the claim requires one for every direct-link
result. -/
theorem persistence_policy_counterexample :
    (generateThumbnailS c2Env ⟨[], [], [], [], []⟩ "https://youtube.com/watch?v=x"
        true).result =
      EnhResult.ok ⟨some "https://v.example/t.jpg", ThumbKind.video, "youtube", some true,
        none⟩ ∧
    (generateThumbnailS c2Env ⟨[], [], [], [], []⟩ "https://youtube.com/watch?v=x"
        true).state.metadata = [] := by
  constructor
  · decide
  · decide

/-- C2 (amended): only screenshot results are uploaded.  Any change to
the Blob Store during resolution implies the inner result was a
screenshot-kind data URL; and a direct-link result (non-data-URL
thumbnail) is not persisted at all — the persistence step leaves both
the Metadata Store and the Blob Store untouched, writes only the local
seven-day shortcut, and returns the inner result unchanged. -/
theorem persistence_policy (env : EnhEnv) (st : PipeState) (url : String) :
    ((genBody env st url).state.storage ≠ st.storage →
      env.inner.type = ThumbKind.screenshot ∧
      ∃ th, env.inner.thumbnail = some th ∧ strStartsWith th "data:" = true) ∧
    (∀ th, env.inner.thumbnail = some th → strStartsWith th "data:" = false →
      genFresh env st url (env.hash url) =
        ⟨EnhResult.ok env.inner, cacheThumbnailLocallyS env st url th, true⟩) := by
  constructor
  · intro hne
    by_contra hcon
    exact hne (genBody_storage_unchanged env st url hcon)
  · intro th hth hdir
    exact genFresh_direct_link env st url (env.hash url) th hth hdir

/-- Witness for C2: the direct-link video result is returned as-is with
only the local shortcut written, and the Metadata Store and Blob Store
are untouched. -/
theorem persistence_policy_witness :
    genFresh c2Env ⟨[], [], [], [], []⟩ "https://a.com" (c2Env.hash "https://a.com") =
      ⟨EnhResult.ok c2Env.inner,
        cacheThumbnailLocallyS c2Env ⟨[], [], [], [], []⟩ "https://a.com"
          "https://v.example/t.jpg", true⟩ :=
  (persistence_policy c2Env ⟨[], [], [], [], []⟩ "https://a.com").2
    "https://v.example/t.jpg" rfl rfl

theorem uniquified_path_ne (h uid : String) :
    ("thumbnails/" ++ h ++ ".jpg" : String) ≠
      "thumbnails/" ++ (h ++ "_" ++ uid) ++ ".jpg" := by
  intro he
  have hlen := congrArg String.length he
  have hu : ("_" : String).length = 1 := rfl
  simp only [String.length_append, hu] at hlen
  omega

theorem uniquified_hash_ne (h uid : String) : (h ++ "_" ++ uid : String) ≠ h := by
  intro he
  have hlen := congrArg String.length he
  have hu : ("_" : String).length = 1 := rfl
  simp only [String.length_append, hu] at hlen
  omega

theorem upload_ok_eq (env : EnhEnv) (s : PipeState) (th uh : String)
    (hup : env.uploadOk = true) :
    uploadThumbnailToStorageS env s th uh =
      (some (env.downloadUrl ("thumbnails/" ++ uh ++ ".jpg"), "thumbnails/" ++ uh ++ ".jpg"),
        { s with storage := jsMapSet s.storage ("thumbnails/" ++ uh ++ ".jpg") th }) := by
  unfold uploadThumbnailToStorageS
  rw [if_pos hup]

/-- C4: regeneration never touches the canonical record.  When access is
granted and the fresh render is a screenshot-kind data URL that uploads
and registers successfully, the metadata collection afterwards is
exactly the old collection plus one appended record keyed
hash_uniqueId, the Blob Store object at the canonical path
thumbnails/hash.jpg is unchanged, the metadata lookup under the
canonical hash is unchanged, and the returned blob reference is the new
object's download URL; a direct-link regeneration result persists
nothing at all. -/
theorem regeneration_frame (env : EnhEnv) (st : PipeState) (url uniqueId th : String)
    (hacc : (userHasAccessToUrlS env st url).1 = true)
    (hth : env.inner.thumbnail = some th) :
    (strStartsWith th "data:" = true → env.inner.type = ThumbKind.screenshot →
      env.uploadOk = true → env.metaOk = true →
      ((regenerateThumbnailS env st url true uniqueId).state.metadata =
        st.metadata ++ [⟨"doc_" ++ toString st.metadata.length, url,
          env.hash url ++ "_" ++ uniqueId,
          env.downloadUrl ("thumbnails/" ++ (env.hash url ++ "_" ++ uniqueId) ++ ".jpg"),
          "thumbnails/" ++ (env.hash url ++ "_" ++ uniqueId) ++ ".jpg",
          env.inner.type, "regenerated-" ++ env.inner.source, env.now, env.now, 1, env.now,
          env.userId⟩] ∧
      jsMapGet (regenerateThumbnailS env st url true uniqueId).state.storage
          ("thumbnails/" ++ env.hash url ++ ".jpg") =
        jsMapGet st.storage ("thumbnails/" ++ env.hash url ++ ".jpg") ∧
      (regenerateThumbnailS env st url true uniqueId).state.metadata.find?
          (fun d => d.urlHash == env.hash url) =
        st.metadata.find? (fun d => d.urlHash == env.hash url) ∧
      (regenerateThumbnailS env st url true uniqueId).result =
        EnhResult.ok ⟨some (env.downloadUrl
            ("thumbnails/" ++ (env.hash url ++ "_" ++ uniqueId) ++ ".jpg")),
          env.inner.type, "regenerated-" ++ env.inner.source, env.inner.isVideoThumbnail,
          some "regenerated"⟩)) ∧
    (strStartsWith th "data:" = false →
      (regenerateThumbnailS env st url true uniqueId).state.metadata = st.metadata ∧
      (regenerateThumbnailS env st url true uniqueId).state.storage = st.storage) := by
  have hfr := userHasAccess_frame env st url
  constructor
  · intro hdata hscr hup hmeta
    have hcond : ((!(!(strStartsWith th "data:")) &&
        (env.inner.type == ThumbKind.screenshot)) = true) := by
      simp [hdata, hscr]
    have hrun : regenerateThumbnailS env st url true uniqueId =
        ⟨EnhResult.ok ⟨some (env.downloadUrl
            ("thumbnails/" ++ (env.hash url ++ "_" ++ uniqueId) ++ ".jpg")),
          env.inner.type, "regenerated-" ++ env.inner.source, env.inner.isVideoThumbnail,
          some "regenerated"⟩,
          cacheThumbnailLocallyS env
            (storeThumbnailMetadataS env
              { cacheRemove
                  { (userHasAccessToUrlS env st url).2 with
                    thumbLoc := jsMapDelete (userHasAccessToUrlS env st url).2.thumbLoc
                      ("thumbnail_" ++ url) }
                  ("thumbnail_metadata_" ++ env.hash url) with
                storage := jsMapSet (cacheRemove
                  { (userHasAccessToUrlS env st url).2 with
                    thumbLoc := jsMapDelete (userHasAccessToUrlS env st url).2.thumbLoc
                      ("thumbnail_" ++ url) }
                  ("thumbnail_metadata_" ++ env.hash url)).storage
                  ("thumbnails/" ++ (env.hash url ++ "_" ++ uniqueId) ++ ".jpg") th }
              url (env.hash url ++ "_" ++ uniqueId)
              (env.downloadUrl ("thumbnails/" ++ (env.hash url ++ "_" ++ uniqueId) ++ ".jpg"))
              ("thumbnails/" ++ (env.hash url ++ "_" ++ uniqueId) ++ ".jpg")
              env.inner.type ("regenerated-" ++ env.inner.source))
            url (env.downloadUrl
              ("thumbnails/" ++ (env.hash url ++ "_" ++ uniqueId) ++ ".jpg")),
          true⟩ := by
      unfold regenerateThumbnailS
      dsimp only
      rw [hacc]
      rw [if_neg (by simp)]
      rw [hth]
      dsimp only
      rw [if_pos rfl, if_pos hcond,
        upload_ok_eq env _ th (env.hash url ++ "_" ++ uniqueId) hup]
      dsimp only
      rw [if_pos hmeta]
    rw [hrun]
    refine ⟨?_, ?_, ?_, rfl⟩
    · simp only [cacheThumbnailLocallyS, storeThumbnailMetadataS, cacheRemove, hfr.2.1]
    · simp only [cacheThumbnailLocallyS, storeThumbnailMetadataS, cacheRemove]
      rw [jsMapGet_set_other _ _ _ th (uniquified_path_ne (env.hash url) uniqueId), hfr.1]
    · simp only [cacheThumbnailLocallyS, storeThumbnailMetadataS, cacheRemove, hfr.2.1]
      rw [List.find?_append,
        List.find?_cons_of_neg _ (by simp [uniquified_hash_ne (env.hash url) uniqueId])]
      simp
  · intro hdir
    have hrun : regenerateThumbnailS env st url true uniqueId =
        ⟨EnhResult.ok env.inner,
          cacheThumbnailLocallyS env
            (cacheRemove
              { (userHasAccessToUrlS env st url).2 with
                thumbLoc := jsMapDelete (userHasAccessToUrlS env st url).2.thumbLoc
                  ("thumbnail_" ++ url) }
              ("thumbnail_metadata_" ++ env.hash url))
            url th, true⟩ := by
      unfold regenerateThumbnailS
      dsimp only
      rw [hacc]
      rw [if_neg (by simp)]
      rw [hth]
      dsimp only
      rw [if_pos rfl]
      simp [hdir]
    rw [hrun]
    exact ⟨hfr.2.1, hfr.1⟩

/-- Concrete environment for the C4 witness: a screenshot data-URL
render with successful upload and registration. -/
def c4Env : EnhEnv :=
  ⟨fun _ => "h", "u1", 0,
    ⟨some "data:image/jpeg;base64,xyz", ThumbKind.screenshot, "api-screenshot", some false,
      some "screenshot"⟩, true, true, fun p => "dl:" ++ p⟩

/-- Concrete state for the C4 witness: one canonical record and blob
already stored under the URL's hash. -/
def c4St : PipeState :=
  ⟨[], [], [],
    [⟨"doc_0", "https://a.com", "h", "surl0", "thumbnails/h.jpg", ThumbKind.screenshot,
      "api", 0, 0, 1, 0, "u1"⟩],
    [("thumbnails/h.jpg", "blob0")]⟩

/-- Witness for C4: regenerating over an existing canonical record
leaves the canonical blob and the canonical metadata lookup unchanged
and appends exactly one uniquified record. -/
theorem regeneration_frame_witness :
    jsMapGet (regenerateThumbnailS c4Env c4St "https://a.com" true "uid1").state.storage
        ("thumbnails/" ++ c4Env.hash "https://a.com" ++ ".jpg") =
      jsMapGet c4St.storage ("thumbnails/" ++ c4Env.hash "https://a.com" ++ ".jpg") ∧
    (regenerateThumbnailS c4Env c4St "https://a.com" true "uid1").state.metadata.find?
        (fun d => d.urlHash == c4Env.hash "https://a.com") =
      c4St.metadata.find? (fun d => d.urlHash == c4Env.hash "https://a.com") ∧
    (regenerateThumbnailS c4Env c4St "https://a.com" true "uid1").state.metadata =
      c4St.metadata ++ [⟨"doc_" ++ toString c4St.metadata.length, "https://a.com",
        c4Env.hash "https://a.com" ++ "_" ++ "uid1",
        c4Env.downloadUrl ("thumbnails/" ++ (c4Env.hash "https://a.com" ++ "_" ++ "uid1")
          ++ ".jpg"),
        "thumbnails/" ++ (c4Env.hash "https://a.com" ++ "_" ++ "uid1") ++ ".jpg",
        c4Env.inner.type, "regenerated-" ++ c4Env.inner.source, c4Env.now, c4Env.now, 1,
        c4Env.now, c4Env.userId⟩] := by
  have h := (regeneration_frame c4Env c4St "https://a.com" "uid1"
    "data:image/jpeg;base64,xyz" (by decide) rfl).1 (by decide) rfl rfl rfl
  exact ⟨h.2.1, h.2.2.1, h.1⟩

/-- Fold of access-stat touches at successive clock readings, modelling
repeated resolution or tracking calls against the same record. -/
def touchFold (env : EnhEnv) (st : PipeState) (id : String) : List Int → PipeState
  | [] => st
  | t :: ts => touchFold env (updateAccessStatsS { env with now := t } st id) id ts

theorem updateAccessStats_cooldown_skip (env : EnhEnv) (st : PipeState) (id : String)
    (t0 : Int) (e : CacheEntry CacheVal)
    (hc : jsMapGet st.mem ("thumbnail_access_" ++ id) = some e)
    (hdata : e.data = CacheVal.num t0) (hexp : e.expires = t0 + 24 * 60 * 60 * 1000)
    (h0 : t0 ≤ env.now) (h1 : env.now - t0 < 24 * 60 * 60 * 1000) :
    updateAccessStatsS env st id = st := by
  have hget : getMemory env.now st.mem ("thumbnail_access_" ++ id) =
      (some (CacheVal.num t0), st.mem) := by
    unfold getMemory
    rw [hc]
    dsimp only
    rw [if_neg (by rw [hexp]; omega), hdata]
  unfold updateAccessStatsS
  dsimp only
  rw [hget]
  dsimp only
  rw [if_pos (by omega)]

theorem updateAccessStats_missing_doc (env : EnhEnv) (st : PipeState) (id : String)
    (hmiss : st.metadata.find? (fun d => d.docId == id) = none) :
    (updateAccessStatsS env st id).metadata = st.metadata := by
  unfold updateAccessStatsS
  dsimp only
  split
  · rfl
  · rw [hmiss]

/-- C8: access-stats cooldown.  With the cooldown cache holding the
timestamp of the last recorded update, any number of further touches
arriving within twenty-four hours of that update leave the state
entirely unchanged — in particular no Metadata Store write happens; and
a stats update against a record id with no metadata document performs no
metadata write either (the rejected updateDoc is swallowed; the
embedding is a total function, so no error can reach the caller). -/
theorem access_stats_cooldown (env : EnhEnv) (st : PipeState) (id : String) (t0 : Int)
    (e : CacheEntry CacheVal) (ts : List Int)
    (hc : jsMapGet st.mem ("thumbnail_access_" ++ id) = some e)
    (hdata : e.data = CacheVal.num t0) (hexp : e.expires = t0 + 24 * 60 * 60 * 1000)
    (hts : ∀ t ∈ ts, t0 ≤ t ∧ t - t0 < 24 * 60 * 60 * 1000) :
    touchFold env st id ts = st ∧
    (∀ (env2 : EnhEnv) (st2 : PipeState),
      st2.metadata.find? (fun d => d.docId == id) = none →
      (updateAccessStatsS env2 st2 id).metadata = st2.metadata) := by
  constructor
  · induction ts with
    | nil => rfl
    | cons t ts ih =>
      have hstep : updateAccessStatsS { env with now := t } st id = st :=
        updateAccessStats_cooldown_skip { env with now := t } st id t0 e hc hdata hexp
          (hts t (List.mem_cons_self t ts)).1 (hts t (List.mem_cons_self t ts)).2
      show touchFold env (updateAccessStatsS { env with now := t } st id) id ts = st
      rw [hstep]
      exact ih (fun t2 ht2 => hts t2 (List.mem_cons_of_mem t ht2))
  · intro env2 st2 hmiss
    exact updateAccessStats_missing_doc env2 st2 id hmiss

/-- Witness for C8: after an update recorded at time zero, three touches
within the first day leave the state untouched, and a touch against an
unknown record id writes nothing. -/
theorem access_stats_cooldown_witness :
    touchFold c4Env
        ⟨[("thumbnail_access_doc_0", ⟨CacheVal.num 0, 0, 86400000⟩)], [], [],
          [⟨"doc_0", "https://a.com", "h", "surl0", "thumbnails/h.jpg",
            ThumbKind.screenshot, "api", 0, 0, 1, 0, "u1"⟩], []⟩
        "doc_0" [1000, 2000, 50000000] =
      ⟨[("thumbnail_access_doc_0", ⟨CacheVal.num 0, 0, 86400000⟩)], [], [],
        [⟨"doc_0", "https://a.com", "h", "surl0", "thumbnails/h.jpg",
          ThumbKind.screenshot, "api", 0, 0, 1, 0, "u1"⟩], []⟩ ∧
    (updateAccessStatsS c4Env ⟨[], [], [], [], []⟩ "doc_0").metadata = [] := by
  have h := access_stats_cooldown c4Env
    ⟨[("thumbnail_access_doc_0", ⟨CacheVal.num 0, 0, 86400000⟩)], [], [],
      [⟨"doc_0", "https://a.com", "h", "surl0", "thumbnails/h.jpg",
        ThumbKind.screenshot, "api", 0, 0, 1, 0, "u1"⟩], []⟩
    "doc_0" 0 ⟨CacheVal.num 0, 0, 86400000⟩ [1000, 2000, 50000000] (by decide) rfl
    (by decide) (by decide)
  exact ⟨h.1, h.2 c4Env ⟨[], [], [], [], []⟩ rfl⟩

/-- Concrete environment for the C3 witness: constant hasher, a
direct-link inner result that must never be consulted on the dedup
path, and a clock one day past the epoch so the stats cooldown check is
meaningful. -/
def c3Env : EnhEnv :=
  ⟨fun _ => "h1", "u1", 86400000,
    ⟨some "https://v.example/t.jpg", ThumbKind.video, "youtube", some true, none⟩, true,
    true, fun p => "dl:" ++ p⟩

/-- Concrete state for the C3 witness: one screenshot-kind metadata
record under hash h1 with its blob in storage. -/
def c3St : PipeState :=
  ⟨[], [], [],
    [⟨"doc_0", "https://a.com", "h1", "https://storage/h1.jpg", "thumbnails/h1.jpg",
      ThumbKind.screenshot, "api-screenshot", 0, 0, 1, 0, "u1"⟩],
    [("thumbnails/h1.jpg", "blob")]⟩

/-- Stored-thumbnail view of the C3 witness record as the dedup lookup
returns it. -/
def c3Stored : StoredThumbnail :=
  ⟨"doc_0", "https://a.com", "https://storage/h1.jpg", "thumbnails/h1.jpg",
    ThumbKind.screenshot, "api-screenshot", 0, 0, 1, 0, "h1"⟩

/-- Witness for C3: a stored screenshot record is served from the dedup
check without any inner-service call, returning the stored blob
reference and writing the local seven-day shortcut. -/
theorem dedup_screenshot_only_witness :
    (genBody c3Env c3St "https://a.com").innerCalled = false ∧
    (genBody c3Env c3St "https://a.com").result =
      EnhResult.ok ⟨some "https://storage/h1.jpg", ThumbKind.screenshot,
        "firebase-storage-api-screenshot", some false, some "firebase-cache"⟩ ∧
    jsMapGet (genBody c3Env c3St "https://a.com").state.thumbLoc
        ("thumbnail_" ++ "https://a.com") =
      some ⟨"https://storage/h1.jpg", 86400000, 86400000 + 7 * 24 * 60 * 60 * 1000⟩ := by
  have h := dedup_screenshot_only c3Env c3St "https://a.com" c3Stored
    (checkThumbnailExistsS c3Env (getCachedThumbnailS c3Env c3St "https://a.com").2
      (c3Env.hash "https://a.com")).2 (by rfl)
  have h1 := h.1 rfl
  exact ⟨by rw [h1.1], by rw [h1.1]; rfl, h1.2.1⟩

end BetterBookmarks
